import Mathlib

/-!
Verification of the adVideo_UI repository's reconciliation and mapping engine.

The development shallowly embeds the two processing scripts:
  * adVideo_renamer.py      (the reconciliation engine, function main, lines 92-215)
  * adVideo_metadataPrep.py (the metadata mapper, functions parse_expiration,
    parse_year_from_value and main, lines 28-266)

Python strings are modelled as Lean String values; the Python string
primitives the scripts use (strip, endswith, split, in, upper, lstrip)
are defined below on the underlying character lists, matching Python
semantics on the inputs the scripts can see.  Folders are modelled as the
list of file names returned by os.listdir; os.path.splitext is modelled
faithfully (split at the last dot, unless every character before that dot
is itself a dot).  Filesystem failures of os.rename are modelled by an
explicit oracle parameter.
-/

/-- Whitespace test used by Python str.strip (space, tab, newline, carriage
return; the rarer \x0b and \x0c whitespace characters never occur in this
regime and are omitted). -/
def isSpaceChar (c : Char) : Bool :=
  c = ' ' || c = '\t' || c = '\n' || c = '\r'

/-- Strip leading and trailing whitespace from a character list. -/
def stripL (l : List Char) : List Char :=
  ((l.dropWhile isSpaceChar).reverse.dropWhile isSpaceChar).reverse

/-- Python str.strip(). -/
def pyStrip (s : String) : String := ⟨stripL s.data⟩

/-- Is the first list a prefix of the second (Boolean, by recursion). -/
def isPrefixL : List Char → List Char → Bool
  | [], _ => true
  | _ :: _, [] => false
  | a :: as, b :: bs => a = b && isPrefixL as bs

/-- Python str.endswith(suffix). -/
def pyEndsWith (s suffixStr : String) : Bool :=
  isPrefixL suffixStr.data.reverse s.data.reverse

/-- Python s[:-n] (drop the last n characters; empty result when n exceeds
the length). -/
def pyDropRight (s : String) (n : Nat) : String :=
  ⟨s.data.take (s.data.length - n)⟩

/-- Split a character list at the first occurrence of a (non-empty)
separator substring: returns the part before and the part after the first
occurrence, or none when the separator does not occur. -/
def splitFirstL (sep : List Char) : List Char → Option (List Char × List Char)
  | [] => if sep.isEmpty then some ([], []) else none
  | c :: rest =>
    if isPrefixL sep (c :: rest) then some ([], (c :: rest).drop sep.length)
    else
      match splitFirstL sep rest with
      | some (pre, post) => some (c :: pre, post)
      | none => none

/-- Python substring membership, sub in s. -/
def pyContains (s sub : String) : Bool :=
  (splitFirstL sub.data s.data).isSome

/-- Python s.split(sep, 1): a list of one or two pieces. -/
def pySplitFirst (s sep : String) : List String :=
  match splitFirstL sep.data s.data with
  | some (pre, post) => [⟨pre⟩, ⟨post⟩]
  | none => [s]

/-- Python s.split(sep)[0]: the part before the first occurrence of sep, or
the whole string when sep does not occur. -/
def pySplitHead (s sep : String) : String :=
  match splitFirstL sep.data s.data with
  | some (pre, _) => ⟨pre⟩
  | none => s

/-- Python str.upper() (ASCII uppercasing, as the extensions compared here
are ASCII). -/
def pyUpper (s : String) : String := ⟨s.data.map Char.toUpper⟩

/-- Python s.lstrip(".") — drop every leading dot. -/
def pyLStripDot (s : String) : String := ⟨s.data.dropWhile (fun c => c = '.')⟩

/-- Split a character list around its last dot: some (pre, post) when the
list is pre ++ dot :: post and post holds no dot; none when no dot occurs. -/
def splitLastDot : List Char → Option (List Char × List Char)
  | [] => none
  | c :: rest =>
    match splitLastDot rest with
    | some (pre, post) => some (c :: pre, post)
    | none => if c = '.' then some ([], rest) else none

/-- os.path.splitext on a bare file name (no directory separators occur in
the names handled here): split at the last dot, except that a name whose
characters before that dot are all dots keeps the whole name as the stem. -/
def splitextL (l : List Char) : List Char × List Char :=
  match splitLastDot l with
  | none => (l, [])
  | some (pre, post) =>
    if pre.all (fun c => c = '.') then (l, [])
    else (pre, '.' :: post)

/-- The stem of a file name, os.path.splitext(name)[0]. -/
def stemOf (name : String) : String := ⟨(splitextL name.data).1⟩

/-- The extension of a file name, os.path.splitext(name)[1] (leading dot
included, possibly empty). -/
def extOf (name : String) : String := ⟨(splitextL name.data).2⟩

/-- One logical spreadsheet row: the named columns the two scripts read,
each as the string form of the cell (str(value)), with the empty string
standing for a missing column or a NaN cell.  Both scripts read a row only
through row.get(column, default) followed by str(...).strip() on these
columns, so the embedding keeps the raw strings and trims at each use
site, as the code does. -/
structure Row where
  description : String := ""    -- column "Description"
  adId : String := ""           -- column "AD ID"
  placements : String := ""     -- column "Placement(s)"
  spotRunning : String := ""    -- column "Spot Running"
  adName : String := ""         -- column "Ad Name"
  objective : String := ""      -- column "Objective"
  trt : String := ""            -- column "TRT"
  year : String := ""           -- column "Year"
  wrikeLink : String := ""      -- column "Link to Wrike Project"
  subInitiative : String := ""  -- column "Sub-Initiative"
  locationType : String := ""   -- column "Location Type"
  leadOfferMessage : String := ""   -- column "Lead Offer Message"
  leadFinanceMessage : String := "" -- column "Lead Finance Message"
deriving DecidableEq, Repr

/-- adVideo_metadataPrep.parse_year_from_value (lines 39-45).  The pd.isna
and None guards of the source collapse to the empty string in this string
model (the call sites pass str-convertible cell values, with missing cells
already the empty string). -/
def parse_year_from_value (value : String) : String :=
  let s := pyStrip value
  if pyEndsWith s ".0" then pyDropRight s 2 else s

/-- adVideo_metadataPrep.parse_expiration (lines 28-37).  The isna and
isinstance guards of the source are vacuous here: the single call site
passes str(row.get("Spot Running", "")).strip(), always a string. -/
def parse_expiration (s0 : String) : String :=
  let s := pyStrip s0
  let hyphenResult : Option String :=
    if pyContains s "-" then
      let parts := pySplitFirst s "-"
      if parts.length > 1 then some (pyStrip (parts.getD 1 "")) else none
    else none
  match hyphenResult with
  | some r => r
  | none => if s ≠ "" then pySplitHead s " " else ""

/-- The four optional batch-wide override values (argparse arguments
--wrike_link, --year, --sub_initiative, --location_type).  argparse yields
None when an argument is absent; the source only tests the values for
truthiness, under which None and the empty string coincide, so the empty
string models an absent override. -/
structure OverrideSet where
  wrikeLink : String := ""
  year : String := ""
  subInitiative : String := ""
  locationType : String := ""
deriving DecidableEq, Repr

/-- The fields of the export entry that adVideo_metadataPrep.main assigns
explicitly (lines 184-258).  The remaining roughly one hundred schema
columns are initialized to the empty string at line 184 and never written
again, so they are omitted from the embedding; every omitted field is the
constant empty string. -/
structure ExportRecord where
  filename : String
  fileType : String             -- "File Type"
  assetType : String            -- "Asset Type"
  assetSubType : String         -- "Asset Sub-Type"
  assetStatus : String          -- "Asset Status"
  usageRights : String          -- "Usage Rights"
  userStatus : String           -- "User Status"
  initiative : String           -- "Initiative"
  videoType : String            -- "Video Type"
  linkToWrikeProject : String   -- "Link to Wrike Project"
  yearField : String            -- "Year"
  subInitiativeField : String   -- "Sub-Initiative"
  locationTypeField : String    -- "Location Type"
  deliverable : String          -- "Deliverable"
  spotRunningMMDDYYYY : String  -- "Spot Running (MM/DD/YYYY)"
  videoExpiration : String      -- "Video Expiration"
  adIdField : String            -- "Ad ID"
  leadOfferMessageField : String   -- "Lead Offer Message"
  leadFinanceMessageField : String -- "Lead Finance Message"
  videoFocus : String           -- "Video Focus"
  videoObjective : String       -- "Video Objective"
  totalRunTime : String         -- "Total Run Time (TRT)"
  language : String             -- "Language"
deriving DecidableEq, Repr

/-- The closed allow-list of extensions, adVideo_metadataPrep.py line 155. -/
def allowed_exts : List String :=
  ["AI","CR2","CSS","DOC","DOCX","EPS","GIF","GLB","HTML","IDML","INDD",
   "JFIF","JPEG","MOV","MP3","MP4","OTF","PDF","PNG","PPT","WEBM","AVI","MKV"]

/-- The body of the per-row loop of adVideo_metadataPrep.main after a
matching asset file has been found (lines 179-258): build the export
entry from the row, the override arguments and the matched file name. -/
def buildEntry (args : OverrideSet) (row : Row) (matchFile : String) : ExportRecord :=
  let adId := pyStrip row.adId
  let ext := pyUpper (pyLStripDot (extOf matchFile))
  let fileType := if allowed_exts.contains ext then ext else ""
  let spot := pyStrip row.spotRunning
  let adName := pyStrip row.adName
  let videoFocusVal := pyStrip (pySplitHead adName " (Spanish)")
  let trtVal := pyStrip row.trt
  { filename := matchFile
    fileType := fileType
    assetType := "Final Creative Materials"
    assetSubType := "Ad Video"
    assetStatus := "Final"
    usageRights := "Approved for External Usage"
    userStatus := "Please review metadata"
    initiative := "Promos"
    -- line 199 tests the raw cell row["Ad Name"], not the stripped copy
    videoType := if pyContains row.adName "(Animation)" then "Animation" else "Live Action"
    linkToWrikeProject :=
      if args.wrikeLink ≠ "" then args.wrikeLink else pyStrip row.wrikeLink
    yearField :=
      if args.year ≠ "" then parse_year_from_value args.year
      else parse_year_from_value row.year
    subInitiativeField :=
      if args.subInitiative ≠ "" then args.subInitiative else pyStrip row.subInitiative
    locationTypeField :=
      if args.locationType ≠ "" then args.locationType else pyStrip row.locationType
    deliverable := pyStrip row.placements
    spotRunningMMDDYYYY := spot
    videoExpiration := parse_expiration spot
    adIdField := adId
    leadOfferMessageField := pyStrip row.leadOfferMessage
    leadFinanceMessageField := pyStrip row.leadFinanceMessage
    videoFocus := if videoFocusVal ≠ "____" then videoFocusVal else ""
    videoObjective := pyStrip row.objective
    totalRunTime :=
      if trtVal = ":06" then "06 seconds"
      else if trtVal = ":15" then "15 seconds"
      else if trtVal = ":30" then "30 seconds"
      else trtVal
    language := if pyContains adName "Spanish" then "Spanish" else "English" }

/-- The canonical target stem of a row, f-string Description-AD ID
(adVideo_metadataPrep.py line 173 and adVideo_renamer.py line 120). -/
def matchKey (row : Row) : String :=
  pyStrip row.description ++ "-" ++ pyStrip row.adId

/-- One iteration of the per-row loop of adVideo_metadataPrep.main
(lines 161-260): skip rows whose trimmed Description or AD ID is empty,
then look for the first folder file whose stem equals the MatchKey; with
no such file the row produces no entry at all, otherwise it produces the
built entry. -/
def emitRow (args : OverrideSet) (folder : List String) (row : Row) :
    Option ExportRecord :=
  let desc := pyStrip row.description
  let adId := pyStrip row.adId
  if desc = "" || adId = "" then none
  else
    match folder.find? (fun name => stemOf name == desc ++ "-" ++ adId) with
    | none => none
    | some matchFile => some (buildEntry args row matchFile)

/-- The mapper main loop over the valid rows (adVideo_metadataPrep.main,
lines 161-260): the output list holds one entry per row that survives the
skip tests, in row order. -/
def metadataMain (args : OverrideSet) (folder : List String) (rows : List Row) :
    List ExportRecord :=
  rows.filterMap (emitRow args folder)

/-- The outcome of the inner folder scan of adVideo_renamer.main
(lines 125-152): the loop walks the current directory listing and stops at
the first file whose stem equals the row Description. -/
inductive RowOutcome where
  /-- the loop ended without finding a file whose stem equals Description -/
  | noMatch
  /-- a file was found and its name already equals the target name
  (src = dst, lines 147-152): counted as a success, no filesystem call -/
  | alreadyNamed
  /-- a file was found and os.rename succeeded (lines 134-141); the field
  holds the folder listing afterwards -/
  | renamedTo (folder : List String)
  /-- a file was found but os.rename raised (lines 142-146); the field
  holds the name of the file whose rename failed -/
  | renameFailed (srcName : String)
deriving DecidableEq, Repr

/-- The inner for-loop of adVideo_renamer.main (lines 125-152) over the
current folder listing.  renameFails is the oracle deciding whether
os.rename src dst raises; the renamed file keeps its listing position (the
abstraction of directory order that the source re-reads each row). -/
def scanRow (renameFails : String → String → Bool) (desc newStem : String) :
    List String → RowOutcome
  | [] => .noMatch
  | name :: rest =>
    if stemOf name = desc then
      let dst := newStem ++ extOf name
      if name ≠ dst then
        if renameFails name dst then .renameFailed name
        else .renamedTo (dst :: rest)
      else .alreadyNamed
    else
      match scanRow renameFails desc newStem rest with
      | .renamedTo f => .renamedTo (name :: f)
      | o => o

/-- The mutable state of one reconciliation pass: the current folder
listing, the counter successful_renames, the list could_not_rename_files
and the set matched_spreadsheet_descriptions (kept as a list; only
membership is ever used). -/
structure RenState where
  folder : List String
  renamed : Nat
  failures : List String
  matched : List String
deriving DecidableEq, Repr

/-- The failure entry appended at adVideo_renamer.py line 156 when no
folder file matches a row Description. -/
def noFileMsg (desc : String) : String :=
  "No file found in folder for Description: \x27" ++ desc ++ "\x27 from spreadsheet"

/-- One iteration of the per-row loop of adVideo_renamer.main
(lines 107-156). -/
def renStep (renameFails : String → String → Bool) (s : RenState) (row : Row) :
    RenState :=
  let desc := pyStrip row.description
  let adId := pyStrip row.adId
  if desc = "" || adId = "" then s
  else
    let newStem := desc ++ "-" ++ adId
    match scanRow renameFails desc newStem s.folder with
    | .noMatch => { s with failures := s.failures ++ [noFileMsg desc] }
    | .alreadyNamed =>
        { s with renamed := s.renamed + 1, matched := s.matched ++ [desc] }
    | .renamedTo f =>
        { s with folder := f, renamed := s.renamed + 1, matched := s.matched ++ [desc] }
    | .renameFailed src => { s with failures := s.failures ++ [src] }

/-- The set all_spreadsheet_descriptions of adVideo_renamer.py line 174:
every non-empty trimmed Description value of the processed rows (kept as a
list; only membership is ever used). -/
def allDescriptions (rows : List Row) : List String :=
  rows.filterMap (fun r =>
    let d := pyStrip r.description
    if d = "" then none else some d)

/-- The summary returned by one reconciliation pass: successful_renames,
could_not_rename_files, files_in_folder_without_spreadsheet_match (before
the display-only sort and deduplication of line 208), and the folder
listing after all renames. -/
structure ReconciliationResult where
  renamed : Nat
  failures : List String
  unmatched : List String
  folderFinal : List String
deriving DecidableEq, Repr

/-- adVideo_renamer.main, lines 92-215, as a function of the valid rows,
the initial folder listing and the rename-failure oracle: fold the per-row
step over the rows, then compute the unmatched-file report of lines
174-193 from the initial listing (the source iterates the snapshot
initial_files_in_folder_full_paths; the listing order stands in for the
arbitrary iteration order of that Python set, which only the display
ordering observes). -/
def reconcile (renameFails : String → String → Bool) (folder0 : List String)
    (rows : List Row) : ReconciliationResult :=
  let fin := rows.foldl (renStep renameFails) ⟨folder0, 0, [], []⟩
  let allDescs := allDescriptions rows
  let unmatched := folder0.filter (fun name =>
    let stem := stemOf name
    -- line 178-179: outer test, then line 192: inner (repeated) test
    !(allDescs.contains stem) && !(fin.matched.contains stem)
      && !(allDescs.contains stem))
  ⟨fin.renamed, fin.failures, unmatched, fin.folder⟩

/-- The defensive skip test of adVideo_renamer.py line 115 and
adVideo_metadataPrep.py line 169: the row is skipped when its trimmed
Description or AD ID is empty. -/
def skippedRow (row : Row) : Bool :=
  pyStrip row.description = "" || pyStrip row.adId = ""

/-- Each processed row moves the combined success-plus-failure tally by
exactly one, and a skipped row moves it by nothing. -/
theorem renStep_count (rf : String → String → Bool) (s : RenState) (row : Row) :
    (renStep rf s row).renamed + (renStep rf s row).failures.length
      = s.renamed + s.failures.length + (if skippedRow row then 0 else 1) := by
  unfold renStep skippedRow
  split
  · rename_i h
    rw [if_pos h]
    omega
  · rename_i h
    rw [if_neg h]
    dsimp only
    split <;> simp [List.length_append] <;> omega

/-- Folding the per-row step accumulates one tally unit per non-skipped
row. -/
theorem foldl_renStep_count (rf : String → String → Bool) (rows : List Row)
    (s : RenState) :
    (rows.foldl (renStep rf) s).renamed
        + (rows.foldl (renStep rf) s).failures.length
      = s.renamed + s.failures.length
        + (rows.filter (fun r => !skippedRow r)).length := by
  induction rows generalizing s with
  | nil => simp
  | cons r rest ih =>
    simp only [List.foldl_cons, List.filter_cons]
    rw [ih]
    have hc := renStep_count rf s r
    cases hsk : skippedRow r <;> simp [hsk] at hc ⊢ <;> omega

/-- C2: Partition of row dispositions: after reconcile finishes, the
renamed count plus the number of row-level failure entries equals the
number of valid rows minus the rows skipped for a blank Description or
AD ID; each valid row lands in exactly one of the three buckets. -/
theorem c2_partition (rf : String → String → Bool) (folder0 : List String)
    (rows : List Row) :
    (reconcile rf folder0 rows).renamed
        + (reconcile rf folder0 rows).failures.length
      = rows.length - (rows.filter skippedRow).length := by
  have h := foldl_renStep_count rf rows ⟨folder0, 0, [], []⟩
  have hsplit := @List.length_eq_length_filter_add Row rows skippedRow
  show (rows.foldl (renStep rf) ⟨folder0, 0, [], []⟩).renamed
      + (rows.foldl (renStep rf) ⟨folder0, 0, [], []⟩).failures.length
      = rows.length - (rows.filter skippedRow).length
  dsimp only [List.length_nil] at h
  omega

/-- C4: Blank-key rows are inert: a row whose trimmed Description or AD ID
is empty performs no rename, changes neither the renamed count nor the
failure list, and raises nothing — the step leaves the whole state
untouched and the fold continues with the next row. -/
theorem c4_blank_key_rows_inert (rf : String → String → Bool) (s : RenState)
    (row : Row) (h : pyStrip row.description = "" ∨ pyStrip row.adId = "") :
    renStep rf s row = s := by
  unfold renStep
  rcases h with h | h <;> simp [h]

/-- C4 witness: a concrete blank-Description row leaves a concrete state
unchanged. -/
theorem c4_blank_key_rows_inert_witness :
    (pyStrip " " = "" ∨ pyStrip "7" = "") ∧
      renStep (fun _ _ => false) ⟨["x.mp4"], 0, [], []⟩ { description := " ", adId := "7" }
        = ⟨["x.mp4"], 0, [], []⟩ :=
  ⟨Or.inl (by decide),
    c4_blank_key_rows_inert _ _ _ (Or.inl (by decide))⟩

/-- C1: the engine is not idempotent.  After a successful first pass the
renamed file carries the stem Description-AdId, but the scan of the second
run still looks for a file whose stem equals Description (line 129), so
the already-at-target-name success branch of lines 147-152 can never fire
for a processed row (it would need Description = Description-AdId, which
the non-empty AD ID forbids); the second run instead reports a
no-file-found failure for every previously renamed row. -/
theorem c1_second_run_fails :
    (reconcile (fun _ _ => false) ["clipA.mp4"]
        [{ description := "clipA", adId := "99" }]).renamed = 1
    ∧ (reconcile (fun _ _ => false) ["clipA.mp4"]
        [{ description := "clipA", adId := "99" }]).failures = []
    ∧ (reconcile (fun _ _ => false) ["clipA.mp4"]
        [{ description := "clipA", adId := "99" }]).folderFinal = ["clipA-99.mp4"]
    ∧ (reconcile (fun _ _ => false) ["clipA-99.mp4"]
        [{ description := "clipA", adId := "99" }]).renamed = 0
    ∧ (reconcile (fun _ _ => false) ["clipA-99.mp4"]
        [{ description := "clipA", adId := "99" }]).failures
        = [noFileMsg "clipA"] := by
  refine ⟨by decide, by decide, by decide, by decide, by decide⟩

/-- Boolean list containment agrees with membership (strings compare by
decidable equality). -/
theorem contains_eq_false (l : List String) (a : String) :
    (l.contains a = false) ↔ a ∉ l := by
  constructor
  · intro h hmem
    have hc : l.contains a = true := List.elem_iff.mpr hmem
    rw [h] at hc
    exact Bool.false_ne_true hc
  · intro h
    cases hc : l.contains a
    · rfl
    · exact absurd (List.elem_iff.mp hc) h

/-- Membership in the description snapshot of line 174: exactly the
non-empty trimmed Description values of the rows. -/
theorem mem_allDescriptions (rows : List Row) (d : String) :
    d ∈ allDescriptions rows ↔
      ∃ r ∈ rows, pyStrip r.description ≠ "" ∧ pyStrip r.description = d := by
  unfold allDescriptions
  rw [List.mem_filterMap]
  constructor
  · rintro ⟨r, hr, hf⟩
    refine ⟨r, hr, ?_⟩
    dsimp only at hf
    by_cases h : pyStrip r.description = ""
    · rw [if_pos h] at hf
      exact absurd hf (by simp)
    · rw [if_neg h] at hf
      exact ⟨h, Option.some.inj hf⟩
  · rintro ⟨r, hr, hne, heq⟩
    refine ⟨r, hr, ?_⟩
    dsimp only
    rw [if_neg hne, heq]

/-- A description recorded as matched by one row step is either inherited
from the incoming state or is the non-empty trimmed Description of the
processed row. -/
theorem renStep_matched (rf : String → String → Bool) (s : RenState) (row : Row)
    (d : String) (hd : d ∈ (renStep rf s row).matched) :
    d ∈ s.matched ∨ (d = pyStrip row.description ∧ pyStrip row.description ≠ "") := by
  unfold renStep at hd
  dsimp only at hd
  split at hd
  · exact Or.inl hd
  · rename_i h
    have hdesc : pyStrip row.description ≠ "" := by
      intro he
      exact h (by simp [he])
    split at hd
    · exact Or.inl hd
    · rcases List.mem_append.mp hd with h1 | h1
      · exact Or.inl h1
      · exact Or.inr ⟨List.mem_singleton.mp h1, hdesc⟩
    · rcases List.mem_append.mp hd with h1 | h1
      · exact Or.inl h1
      · exact Or.inr ⟨List.mem_singleton.mp h1, hdesc⟩
    · exact Or.inl hd

/-- Every description in the matched set after the fold is inherited or is
a non-empty trimmed Description of some processed row (and so lies in the
line-174 snapshot). -/
theorem foldl_matched (rf : String → String → Bool) (rows : List Row)
    (s : RenState) (d : String)
    (hd : d ∈ (rows.foldl (renStep rf) s).matched) :
    d ∈ s.matched ∨ d ∈ allDescriptions rows := by
  induction rows generalizing s with
  | nil => exact Or.inl hd
  | cons r rest ih =>
    simp only [List.foldl_cons] at hd
    rcases ih (renStep rf s r) hd with h1 | h1
    · rcases renStep_matched rf s r d h1 with h2 | h2
      · exact Or.inl h2
      · exact Or.inr ((mem_allDescriptions (r :: rest) d).mpr
          ⟨r, List.mem_cons_self r rest, h2.2, h2.1.symm⟩)
    · rcases (mem_allDescriptions rest d).mp h1 with ⟨r2, hr2, hprop⟩
      exact Or.inr ((mem_allDescriptions (r :: rest) d).mpr
        ⟨r2, List.mem_cons_of_mem r hr2, hprop⟩)

/-- C3: Unmatched-file accounting uses original stems: a file listed at
the start of the run is reported as having no spreadsheet match exactly
when its original stem is not the trimmed Description of any input row —
for every rename-failure oracle, so independently of which renames the
run performs, and with no reference to the stems remaining in the folder
afterwards. -/
theorem c3_unmatched_uses_original_stems (rf : String → String → Bool)
    (folder0 : List String) (rows : List Row) (name : String) :
    name ∈ (reconcile rf folder0 rows).unmatched ↔
      name ∈ folder0
        ∧ ¬ ∃ r ∈ rows, pyStrip r.description ≠ ""
            ∧ pyStrip r.description = stemOf name := by
  unfold reconcile
  dsimp only
  rw [List.mem_filter]
  constructor
  · rintro ⟨hmem, hpred⟩
    refine ⟨hmem, ?_⟩
    rintro ⟨r, hr, hne, heq⟩
    have hin : stemOf name ∈ allDescriptions rows :=
      (mem_allDescriptions rows (stemOf name)).mpr ⟨r, hr, hne, heq⟩
    simp only [Bool.and_eq_true, Bool.not_eq_true'] at hpred
    exact absurd hin ((contains_eq_false _ _).mp hpred.1.1)
  · rintro ⟨hmem, hnex⟩
    refine ⟨hmem, ?_⟩
    have hnotall : stemOf name ∉ allDescriptions rows := fun hmem2 =>
      hnex ((mem_allDescriptions rows (stemOf name)).mp hmem2)
    have hnotmatched :
        stemOf name ∉ (rows.foldl (renStep rf) ⟨folder0, 0, [], []⟩).matched := by
      intro hm
      rcases foldl_matched rf rows _ _ hm with h | h
      · simp at h
      · exact hnotall h
    simp only [Bool.and_eq_true, Bool.not_eq_true']
    exact ⟨⟨(contains_eq_false _ _).mpr hnotall,
      (contains_eq_false _ _).mpr hnotmatched⟩,
      (contains_eq_false _ _).mpr hnotall⟩

/-- Dropping a while-prefix twice is the same as dropping it once. -/
theorem dropWhile_twice (p : Char → Bool) (l : List Char) :
    (l.dropWhile p).dropWhile p = l.dropWhile p := by
  induction l with
  | nil => rfl
  | cons c t ih =>
    rw [List.dropWhile_cons]
    by_cases h : p c = true
    · rw [if_pos h]
      exact ih
    · rw [if_neg h, List.dropWhile_cons, if_neg h]

/-- A prefix of a list that dropWhile leaves unchanged is itself left
unchanged by dropWhile. -/
theorem dropWhile_eq_self_of_prefixPart (p : Char → Bool) {m A : List Char}
    (hp : m <+: A) (hA : A.dropWhile p = A) : m.dropWhile p = m := by
  cases m with
  | nil => rfl
  | cons c m2 =>
    obtain ⟨t, ht⟩ := hp
    have hc : p c = false := by
      by_contra hc
      have hc2 : p c = true := by
        cases hpc : p c
        · exact absurd hpc hc
        · rfl
      rw [← ht, List.cons_append, List.dropWhile_cons, if_pos hc2] at hA
      have hlen : ((m2 ++ t).dropWhile p).length ≤ (m2 ++ t).length :=
        (List.dropWhile_suffix p).length_le
      rw [hA] at hlen
      simp at hlen
    rw [List.dropWhile_cons, if_neg (by simp [hc])]

/-- Python strip is idempotent. -/
theorem stripL_idem (l : List Char) : stripL (stripL l) = stripL l := by
  unfold stripL
  set p := isSpaceChar with hp
  set A := l.dropWhile p with hA
  set D := A.reverse.dropWhile p with hD
  have hAA : A.dropWhile p = A := dropWhile_twice p l
  have hBA : D.reverse <+: A := by
    have hsuf : A.reverse.dropWhile p <:+ A.reverse := List.dropWhile_suffix p
    obtain ⟨t, ht⟩ := hsuf
    refine ⟨t.reverse, ?_⟩
    have h2 := congrArg List.reverse ht
    simpa [List.reverse_append] using h2
  have h1 : D.reverse.dropWhile p = D.reverse :=
    dropWhile_eq_self_of_prefixPart p hBA hAA
  rw [h1, List.reverse_reverse, dropWhile_twice]

/-- Python strip is idempotent (string form). -/
theorem pyStrip_idem (s : String) : pyStrip (pyStrip s) = pyStrip s := by
  unfold pyStrip
  rw [stripL_idem]

/-- String append acts as list append on the character data. -/
theorem data_append (s t : String) : (s ++ t).data = s.data ++ t.data := by
  cases s
  cases t
  rfl

/-- parse_year_from_value only sees its argument through strip, so
pre-stripping the argument changes nothing. -/
theorem parse_year_pyStrip (s : String) :
    parse_year_from_value (pyStrip s) = parse_year_from_value s := by
  unfold parse_year_from_value
  rw [pyStrip_idem]

/-- Characterization of a produced mapper entry: the row passed the blank
test and the entry is built from the first folder file whose stem is the
row MatchKey. -/
theorem emitRow_eq_some (args : OverrideSet) (folder : List String) (row : Row)
    (e : ExportRecord) (h : emitRow args folder row = some e) :
    ∃ f, folder.find?
        (fun name => stemOf name == pyStrip row.description ++ "-" ++ pyStrip row.adId)
          = some f
      ∧ e = buildEntry args row f
      ∧ pyStrip row.description ≠ "" ∧ pyStrip row.adId ≠ "" := by
  unfold emitRow at h
  dsimp only at h
  split at h
  · exact absurd h (by simp)
  · rename_i hcond
    split at h
    · exact absurd h (by simp)
    · rename_i f hf
      refine ⟨f, hf, (Option.some.inj h).symm, ?_, ?_⟩
      · intro he
        exact hcond (by simp [he])
      · intro he
        exact hcond (by simp [he])

/-- C10: the Ad ID output field is the trimmed AD ID column value and the
Spot Running (MM/DD/YYYY) output field is the trimmed Spot Running column
value, for every row the mapper emits an entry for. -/
theorem c10_adid_and_spot_passthrough (args : OverrideSet) (folder : List String)
    (row : Row) (e : ExportRecord) (h : emitRow args folder row = some e) :
    e.adIdField = pyStrip row.adId
      ∧ e.spotRunningMMDDYYYY = pyStrip row.spotRunning := by
  obtain ⟨f, hf, he, hd, ha⟩ := emitRow_eq_some args folder row e h
  subst he
  exact ⟨rfl, rfl⟩

/-- C10 witness: a concrete matched row passes its trimmed AD ID and Spot
Running values through. -/
theorem c10_adid_and_spot_passthrough_witness :
    emitRow {} ["a-7.mp4"]
        { description := "a", adId := " 7 ", spotRunning := " 5/1 ongoing " }
      = some (buildEntry {}
          { description := "a", adId := " 7 ", spotRunning := " 5/1 ongoing " }
          "a-7.mp4")
    ∧ (buildEntry {}
          { description := "a", adId := " 7 ", spotRunning := " 5/1 ongoing " }
          "a-7.mp4").adIdField = pyStrip " 7 "
      ∧ (buildEntry {}
          { description := "a", adId := " 7 ", spotRunning := " 5/1 ongoing " }
          "a-7.mp4").spotRunningMMDDYYYY = pyStrip " 5/1 ongoing " :=
  ⟨by decide, c10_adid_and_spot_passthrough {} ["a-7.mp4"]
    { description := "a", adId := " 7 ", spotRunning := " 5/1 ongoing " } _ (by decide)⟩

/-- C9: when no folder file's stem equals a row's MatchKey the mapper
emits nothing for that row, and consequently no emitted entry ever
carries a blank filename. -/
theorem c9_no_match_row_excluded :
    (∀ (args : OverrideSet) (folder : List String) (row : Row),
        (∀ name ∈ folder, stemOf name ≠ matchKey row) →
          emitRow args folder row = none)
    ∧ ∀ (args : OverrideSet) (folder : List String) (rows : List Row)
        (e : ExportRecord), e ∈ metadataMain args folder rows → e.filename ≠ "" := by
  constructor
  · intro args folder row hno
    unfold matchKey at hno
    unfold emitRow
    dsimp only
    split
    · rfl
    · have hfind : folder.find?
          (fun name =>
            stemOf name == pyStrip row.description ++ "-" ++ pyStrip row.adId)
          = none := by
        rw [List.find?_eq_none]
        intro x hx
        simp only [beq_iff_eq]
        exact hno x hx
      rw [hfind]
  · intro args folder rows e hmem
    obtain ⟨row, hrow, hsome⟩ := List.mem_filterMap.mp hmem
    obtain ⟨f, hf, he, hd, ha⟩ := emitRow_eq_some args folder row e hsome
    have hpred := List.find?_some hf
    have hstem : stemOf f = pyStrip row.description ++ "-" ++ pyStrip row.adId := by
      simpa [beq_iff_eq] using hpred
    subst he
    intro hemp
    have hfe : f = "" := hemp
    rw [hfe] at hstem
    have hdata := congrArg String.data hstem.symm
    rw [data_append, data_append] at hdata
    rcases List.append_eq_nil.mp hdata with ⟨h1, _⟩
    rcases List.append_eq_nil.mp h1 with ⟨_, h3⟩
    exact absurd h3 (by decide)

/-- C9 witness: a concrete row with no matching file is dropped, and a
concrete emitted entry has a non-blank filename. -/
theorem c9_no_match_row_excluded_witness :
    (∀ name ∈ ["clipB.mp4"], stemOf name ≠ matchKey { description := "a", adId := "1" })
    ∧ emitRow {} ["clipB.mp4"] { description := "a", adId := "1" } = none
    ∧ (buildEntry {} { description := "a", adId := "1" } "a-1.mp4").filename ≠ "" :=
  ⟨by decide,
    c9_no_match_row_excluded.1 {} ["clipB.mp4"]
      { description := "a", adId := "1" } (by decide),
    c9_no_match_row_excluded.2 {} ["a-1.mp4"] [{ description := "a", adId := "1" }]
      (buildEntry {} { description := "a", adId := "1" } "a-1.mp4") (by decide)⟩

/-- The per-field resolution rule exactly as claim C5 words it: the
override when it is present and non-empty, otherwise the row's column
value trimmed (an absent column already being the blank string). -/
def resolveClaimed (override rowValue : String) : String :=
  if override ≠ "" then override else pyStrip rowValue

/-- C5 counterexample: with the year override "2025.0" and row year
"2023" the produced Year field is "2025", not the override value
"2025.0" that the claim prescribes — the code passes the selected value
through parse_year_from_value instead of storing it unchanged. -/
theorem c5_counterexample :
    (metadataMain { year := "2025.0" } ["a-1.mp4"]
        [{ description := "a", adId := "1", year := "2023" }]).map
          (fun e => e.yearField) = ["2025"]
    ∧ resolveClaimed "2025.0" "2023" = "2025.0"
    ∧ ("2025" : String) ≠ "2025.0" :=
  ⟨by decide, by decide, by decide⟩

/-- C5 (amended): for each of the four override fields independently, the
precedence rule selects the override when it is non-empty and the trimmed
row value otherwise; the Wrike-link, Sub-Initiative and Location Type
fields store the selected value unchanged, while the Year field stores
the year-normalization (trim, then strip a trailing ".0") of the selected
value. -/
theorem c5_override_precedence (args : OverrideSet) (folder : List String)
    (row : Row) (e : ExportRecord) (h : emitRow args folder row = some e) :
    e.linkToWrikeProject = resolveClaimed args.wrikeLink row.wrikeLink
    ∧ e.subInitiativeField = resolveClaimed args.subInitiative row.subInitiative
    ∧ e.locationTypeField = resolveClaimed args.locationType row.locationType
    ∧ e.yearField = parse_year_from_value (resolveClaimed args.year row.year) := by
  obtain ⟨f, hf, he, hd, ha⟩ := emitRow_eq_some args folder row e h
  subst he
  refine ⟨rfl, rfl, rfl, ?_⟩
  show (if args.year ≠ "" then parse_year_from_value args.year
      else parse_year_from_value row.year)
    = parse_year_from_value (resolveClaimed args.year row.year)
  unfold resolveClaimed
  by_cases hy : args.year = ""
  · rw [if_neg (by simp [hy]), if_neg (by simp [hy]), parse_year_pyStrip]
  · rw [if_pos hy, if_pos hy]

/-- C5 witness: a concrete matched row with a Wrike override and no
Sub-Initiative override resolves each field by the stated precedence. -/
theorem c5_override_precedence_witness :
    emitRow { wrikeLink := "W", year := "2025.0" } ["a-1.mp4"]
        { description := "a", adId := "1", year := "2023", subInitiative := " si " }
      = some (buildEntry { wrikeLink := "W", year := "2025.0" }
          { description := "a", adId := "1", year := "2023", subInitiative := " si " }
          "a-1.mp4")
    ∧ ((buildEntry { wrikeLink := "W", year := "2025.0" }
          { description := "a", adId := "1", year := "2023", subInitiative := " si " }
          "a-1.mp4").linkToWrikeProject = resolveClaimed "W" ""
      ∧ (buildEntry { wrikeLink := "W", year := "2025.0" }
          { description := "a", adId := "1", year := "2023", subInitiative := " si " }
          "a-1.mp4").subInitiativeField = resolveClaimed "" " si "
      ∧ (buildEntry { wrikeLink := "W", year := "2025.0" }
          { description := "a", adId := "1", year := "2023", subInitiative := " si " }
          "a-1.mp4").locationTypeField = resolveClaimed "" ""
      ∧ (buildEntry { wrikeLink := "W", year := "2025.0" }
          { description := "a", adId := "1", year := "2023", subInitiative := " si " }
          "a-1.mp4").yearField = parse_year_from_value (resolveClaimed "2025.0" "2023")) :=
  ⟨by decide,
    c5_override_precedence { wrikeLink := "W", year := "2025.0" } ["a-1.mp4"]
      { description := "a", adId := "1", year := "2023", subInitiative := " si " }
      _ (by decide)⟩

/-- The Year normalization exactly as claim C6 words it: a blank or empty
resolved value yields blank; a value ending in the two-character suffix
".0" loses that suffix; any other value passes through unchanged. -/
def yearFieldClaimed (s : String) : String :=
  if pyStrip s = "" then ""
  else if pyEndsWith s ".0" then pyDropRight s 2
  else s

/-- C6 counterexample: the resolved year override " 2024 " does not end in
".0" and is not blank, so the claim prescribes passing it through
unchanged, but the produced Year field is the trimmed "2024" — the code
strips whitespace before the suffix test. -/
theorem c6_counterexample :
    (metadataMain { year := " 2024 " } ["a-1.mp4"]
        [{ description := "a", adId := "1" }]).map (fun e => e.yearField)
      = ["2024"]
    ∧ yearFieldClaimed " 2024 " = " 2024 "
    ∧ ("2024" : String) ≠ " 2024 " :=
  ⟨by decide, by decide, by decide⟩

/-- The Year normalization as the code actually behaves: trim the resolved
value first; blank yields blank; a trimmed value ending in ".0" loses the
suffix; otherwise the trimmed value passes through. -/
def yearFieldAmended (s : String) : String :=
  if pyStrip s = "" then ""
  else if pyEndsWith (pyStrip s) ".0" then pyDropRight (pyStrip s) 2
  else pyStrip s

/-- parse_year_from_value agrees with the amended normalization. -/
theorem parse_year_amended_eq (s : String) :
    parse_year_from_value s = yearFieldAmended s := by
  unfold parse_year_from_value yearFieldAmended
  dsimp only
  by_cases h : pyStrip s = ""
  · rw [h, if_pos rfl]
    decide
  · rw [if_neg h]

/-- C6 (amended): for every resolved year value (override when non-empty,
else the row value), the Year field is the trimmed value with a trailing
".0" stripped when the trimmed value ends with that suffix; a blank or
empty value yields blank. -/
theorem c6_year_normalization (args : OverrideSet) (folder : List String)
    (row : Row) (e : ExportRecord) (h : emitRow args folder row = some e) :
    e.yearField = yearFieldAmended (if args.year ≠ "" then args.year else row.year) := by
  obtain ⟨f, hf, he, hd, ha⟩ := emitRow_eq_some args folder row e h
  subst he
  show (if args.year ≠ "" then parse_year_from_value args.year
      else parse_year_from_value row.year)
    = yearFieldAmended (if args.year ≠ "" then args.year else row.year)
  by_cases hy : args.year = "" <;> simp [hy, parse_year_amended_eq]

/-- C6 witness: concrete normalizations through a matched row — the
suffix "2024.0" loses its ".0" and a plain "2024" passes through. -/
theorem c6_year_normalization_witness :
    emitRow { year := "2024.0" } ["a-1.mp4"] { description := "a", adId := "1" }
      = some (buildEntry { year := "2024.0" } { description := "a", adId := "1" }
          "a-1.mp4")
    ∧ (buildEntry { year := "2024.0" } { description := "a", adId := "1" }
        "a-1.mp4").yearField
      = yearFieldAmended (if ("2024.0" : String) ≠ "" then "2024.0" else "") :=
  ⟨by decide,
    c6_year_normalization { year := "2024.0" } ["a-1.mp4"]
      { description := "a", adId := "1" } _ (by decide)⟩

/-- The Video Focus derivation exactly as claim C7 words it: remove a
trailing " (Spanish)" suffix from the ad-name value, trim, and blank the
placeholder "____". -/
def videoFocusClaimed (adName : String) : String :=
  let base := if pyEndsWith adName " (Spanish)" then pyDropRight adName 10 else adName
  let vf := pyStrip base
  if vf = "____" then "" else vf

/-- C7 counterexample: the ad name "Spring (Spanish) Sale" carries no
trailing " (Spanish)" suffix, so the claim prescribes keeping it whole,
but the produced Video Focus is "Spring" — the code cuts at the first
occurrence of " (Spanish)" anywhere in the ad name, not only a trailing
suffix. -/
theorem c7_counterexample :
    (metadataMain {} ["a-1.mp4"]
        [{ description := "a", adId := "1", adName := "Spring (Spanish) Sale" }]).map
          (fun e => e.videoFocus) = ["Spring"]
    ∧ videoFocusClaimed "Spring (Spanish) Sale" = "Spring (Spanish) Sale"
    ∧ ("Spring" : String) ≠ "Spring (Spanish) Sale" :=
  ⟨by decide, by decide, by decide⟩

/-- The Video Focus derivation as the code actually behaves: keep only
the part of the trimmed ad-name before the first occurrence of
" (Spanish)" (the whole trimmed ad-name when it does not occur), trim,
and blank the placeholder "____". -/
def videoFocusAmended (adName : String) : String :=
  let vf := pyStrip (pySplitHead (pyStrip adName) " (Spanish)")
  if vf = "____" then "" else vf

/-- C7 (amended): for every row the mapper emits an entry for, the Video
Focus field is the portion of the ad-name before the first occurrence of
" (Spanish)", trimmed, with the placeholder "____" resolved to blank. -/
theorem c7_video_focus (args : OverrideSet) (folder : List String)
    (row : Row) (e : ExportRecord) (h : emitRow args folder row = some e) :
    e.videoFocus = videoFocusAmended row.adName := by
  obtain ⟨f, hf, he, hd, ha⟩ := emitRow_eq_some args folder row e h
  subst he
  unfold buildEntry videoFocusAmended
  dsimp only
  by_cases hv : pyStrip (pySplitHead (pyStrip row.adName) " (Spanish)") = "____"
  · rw [if_neg (by simp [hv]), if_pos hv]
  · rw [if_pos hv, if_neg hv]

/-- C7 witness: a concrete trailing-suffix ad name loses the suffix and a
concrete placeholder resolves to blank via the amended derivation. -/
theorem c7_video_focus_witness :
    emitRow {} ["a-1.mp4"]
        { description := "a", adId := "1", adName := "Spring Sale (Spanish)" }
      = some (buildEntry {}
          { description := "a", adId := "1", adName := "Spring Sale (Spanish)" }
          "a-1.mp4")
    ∧ (buildEntry {}
        { description := "a", adId := "1", adName := "Spring Sale (Spanish)" }
        "a-1.mp4").videoFocus = videoFocusAmended "Spring Sale (Spanish)"
    ∧ videoFocusAmended "Spring Sale (Spanish)" = "Spring Sale" :=
  ⟨by decide,
    c7_video_focus {} ["a-1.mp4"]
      { description := "a", adId := "1", adName := "Spring Sale (Spanish)" }
      _ (by decide),
    by decide⟩

theorem mk_data (s : String) : String.mk s.data = s := by
  cases s
  rfl

theorem splitFirstL_single (c : Char) (l : List Char) :
    splitFirstL [c] l =
      if l.contains c then
        some (l.takeWhile (fun a => a ≠ c), (l.dropWhile (fun a => a ≠ c)).drop 1)
      else none := by
  induction l with
  | nil => rfl
  | cons a t ih =>
    unfold splitFirstL
    by_cases hac : c = a
    · subst hac
      simp [isPrefixL, List.takeWhile_cons, List.dropWhile_cons]
    · have hpre : isPrefixL [c] (a :: t) = false := by
        simp [isPrefixL, hac]
      rw [hpre]
      simp only [Bool.false_eq_true, if_false]
      rw [ih]
      by_cases hct : t.contains c = true
      · rw [if_pos hct, if_pos (by
          simp only [List.contains_cons, Bool.or_eq_true, beq_iff_eq]
          exact Or.inr hct)]
        simp [List.takeWhile_cons, List.dropWhile_cons, Ne.symm hac]
      · rw [if_neg hct, if_neg (by
          simp only [List.contains_cons, Bool.or_eq_true, beq_iff_eq]
          rintro (h1 | h1)
          · exact hac h1
          · exact hct h1)]

def videoExpirationSpec (spotRaw : String) : String :=
  let t := pyStrip spotRaw
  if t = "" then ""
  else if t.data.contains '-' then
    pyStrip ⟨(t.data.dropWhile (fun a => a ≠ '-')).drop 1⟩
  else ⟨t.data.takeWhile (fun a => a ≠ ' ')⟩

theorem parse_expiration_spec (s : String) :
    parse_expiration (pyStrip s) = videoExpirationSpec s := by
  unfold parse_expiration videoExpirationSpec pyContains pySplitFirst pySplitHead
  dsimp only
  rw [pyStrip_idem]
  set t := pyStrip s with ht
  rw [splitFirstL_single, splitFirstL_single]
  by_cases hc : t.data.contains '-' = true
  · have htne : ¬ t = "" := by
      intro he
      rw [he] at hc
      exact Bool.false_ne_true hc
    rw [if_pos hc, if_neg htne, if_pos hc]
    simp
  · have hcm : '-' ∉ t.data := fun hm => hc (List.elem_iff.mpr hm)
    by_cases hte : t = ""
    · simp [hcm, hte]
    · by_cases hsc : t.data.contains ' ' = true
      · have hscm : ' ' ∈ t.data := List.elem_iff.mp hsc
        simp [hcm, hte, hscm]
      · have hscm : ' ' ∉ t.data := fun hm => hsc (List.elem_iff.mpr hm)
        have htw : t.data.takeWhile (fun a => !decide (a = ' ')) = t.data := by
          rw [List.takeWhile_eq_self_iff]
          intro x hx
          simp only [Bool.not_eq_true', decide_eq_false_iff_not]
          intro hxe
          subst hxe
          exact hscm hx
        simp [hcm, hte, hscm, htw, mk_data]

/-- C8: Video Expiration derivation: the field is computed from the
trimmed Spot Running value — the substring after the first hyphen,
trimmed, when a hyphen occurs; otherwise the substring before the first
space (the whole trimmed value when no space occurs); blank input yields
blank (here via the empty take-while). -/
theorem c8_video_expiration (args : OverrideSet) (folder : List String)
    (row : Row) (e : ExportRecord) (h : emitRow args folder row = some e) :
    e.videoExpiration = videoExpirationSpec row.spotRunning := by
  obtain ⟨f, hf, he, hd, ha⟩ := emitRow_eq_some args folder row e h
  subst he
  exact parse_expiration_spec row.spotRunning

/-- C8 witness: a concrete hyphenated Spot Running value resolves to the
part after the first hyphen, trimmed. -/
theorem c8_video_expiration_witness :
    emitRow {} ["a-1.mp4"]
        { description := "a", adId := "1", spotRunning := " 12/1 - 12/31/2025 " }
      = some (buildEntry {}
          { description := "a", adId := "1", spotRunning := " 12/1 - 12/31/2025 " }
          "a-1.mp4")
    ∧ (buildEntry {}
        { description := "a", adId := "1", spotRunning := " 12/1 - 12/31/2025 " }
        "a-1.mp4").videoExpiration = videoExpirationSpec " 12/1 - 12/31/2025 "
    ∧ videoExpirationSpec " 12/1 - 12/31/2025 " = "12/31/2025" :=
  ⟨by decide,
    c8_video_expiration {} ["a-1.mp4"]
      { description := "a", adId := "1", spotRunning := " 12/1 - 12/31/2025 " }
      _ (by decide),
    by decide⟩
